import Mathlib

/-!
Verification of the media-resizer image geometry and resampling core.

The source is a React application whose algorithmic core consists of:
a file-name classifier (`detectImageType`), a static media-profile table
(`RESIZE_DEFINITIONS`), a pose-guided auto-crop estimator
(`getAutoCropRegion`), a crop resolver with manual > auto > centered-cover
precedence (`getCroppedCanvas` / `handleProcess`), a progressive halving
resampler, and a per-asset batch export loop.

Geometry is modelled over ℚ: the JavaScript arithmetic involved
(additions, multiplications, divisions, `Math.min`/`Math.max`/`Math.floor`)
is embedded exactly.  Canvases are modelled by their dimensions together
with the source rectangle drawn into them; pose detection is an injected
value (a result or a thrown exception); the archive writer is modelled by
the list of entries handed to it.
-/

namespace MediaResizer

/-- Target output size for a (profile, category) pair; source field names `w`/`h`. -/
structure TargetSize where
  w : ℚ
  h : ℚ
deriving DecidableEq, Repr

/-- A crop rectangle in source-pixel coordinates, as produced by
`getAutoCropRegion` / Cropper.js `getData` / the centered-cover branch. -/
structure Rect where
  x : ℚ
  y : ℚ
  width : ℚ
  height : ℚ
deriving DecidableEq, Repr

/-- A named keypoint from the pose-estimation capability (confidence is
never read by the engine, so it is not modelled). -/
structure Keypoint where
  name : String
  x : ℚ
  y : ℚ
deriving DecidableEq, Repr

/-- Image categories: `写真` (Photo), `スタッフ` (Staff), `ロゴ` (Logo). -/
inductive Category where
  | Photo
  | Staff
  | Logo
deriving DecidableEq, Repr

/-- Media profiles: `EPARK` and `ピークマネージャー` (PeakManager). -/
inductive Profile where
  | EPARK
  | PeakManager
deriving DecidableEq, Repr

/-- The literal `RESIZE_DEFINITIONS` table: `null` entries become `none`. -/
def RESIZE_DEFINITIONS : Profile → Category → Option TargetSize
  | .EPARK, .Photo => some ⟨660, 440⟩
  | .EPARK, .Staff => some ⟨150, 174⟩
  | .EPARK, .Logo => some ⟨330, 220⟩
  | .PeakManager, .Photo => some ⟨900, 600⟩
  | .PeakManager, .Staff => some ⟨400, 400⟩
  | .PeakManager, .Logo => none

/-! ## CategoryClassifier (`detectImageType`) -/

/-- Character-list prefix test used to embed JavaScript `String.includes`. -/
def charsStartsWith : List Char → List Char → Bool
  | [], _ => true
  | _ :: _, [] => false
  | a :: as, b :: bs => a == b && charsStartsWith as bs

/-- Substring occurrence test on character lists. -/
def charsIncludes (pat : List Char) : List Char → Bool
  | [] => charsStartsWith pat []
  | c :: rest => charsStartsWith pat (c :: rest) || charsIncludes pat rest

/-- JavaScript `s.includes(pat)`. -/
def strIncludes (s pat : String) : Bool :=
  charsIncludes pat.data s.data

/-- JavaScript `s.toLowerCase()` (ASCII letters lowered; the katakana
characters appearing in the source are unaffected in both semantics). -/
def jsToLower (s : String) : String :=
  ⟨s.data.map Char.toLower⟩

/-- Source `detectImageType`: first-match-wins keyword rules on the lowered name. -/
def detectImageType (fileName : String) : Category :=
  let lowerCaseName := jsToLower fileName
  if strIncludes lowerCaseName "staff" then .Staff
  else if strIncludes lowerCaseName "logo" || strIncludes lowerCaseName "ロゴ" then .Logo
  else if ["main", "top", "shop", "photo"].any (fun keyword => strIncludes lowerCaseName keyword) then .Photo
  else .Photo

/-! ## Centered-cover fallback crop (`getCroppedCanvas`, else-branch) -/

/-- The centered-cover crop rectangle computed when no `cropData` is given:
largest target-aspect rectangle centered in the `W × H` source. -/
def centerCoverRect (W H : ℚ) (t : TargetSize) : Rect :=
  let imageAspect := W / H
  let targetAspect := t.w / t.h
  if imageAspect > targetAspect then
    { x := (W - H * targetAspect) / 2, y := 0
      width := H * targetAspect, height := H }
  else
    { x := 0, y := (H - W / targetAspect) / 2
      width := W, height := W / targetAspect }

/-! ## SubjectFrameEstimator (`getAutoCropRegion`) -/

/-- Shoulder-midpoint x-coordinate (`shoulderCenterX`). -/
def shoulderCenterX (ls rs : Keypoint) : ℚ := (ls.x + rs.x) / 2

/-- Vertical anchor (`cropAnchorY`): `nose.y * 0.5 + shoulderCenterY * 0.5`. -/
def cropAnchorY (nose ls rs : Keypoint) : ℚ :=
  nose.y * 0.5 + ((ls.y + rs.y) / 2) * 0.5

/-- Source `maxCropWidthFromX = 2 * Math.min(shoulderCenterX, image.width - shoulderCenterX)`. -/
def maxCropWidthFromX (W : ℚ) (ls rs : Keypoint) : ℚ :=
  2 * min (shoulderCenterX ls rs) (W - shoulderCenterX ls rs)

/-- Source `maxCropHeightFromY = Math.min(cropAnchorY / 0.55, (image.height - cropAnchorY) / 0.45)`. -/
def maxCropHeightFromY (H : ℚ) (nose ls rs : Keypoint) : ℚ :=
  min (cropAnchorY nose ls rs / 0.55) ((H - cropAnchorY nose ls rs) / 0.45)

/-- The subject-frame rectangle computed by `getAutoCropRegion` once the
three keypoints are in hand (lines 2462-2486 of the source). -/
def autoCropRect (W H : ℚ) (t : TargetSize) (nose ls rs : Keypoint) : Rect :=
  let targetAspect := t.w / t.h
  let maxW := maxCropWidthFromX W ls rs
  let maxH := maxCropHeightFromY H nose ls rs
  let cropWidth := if maxW / targetAspect ≤ maxH then maxW else maxH * targetAspect
  let cropHeight := if maxW / targetAspect ≤ maxH then maxW / targetAspect else maxH
  let cropX := shoulderCenterX ls rs - cropWidth * 0.5
  let cropY := cropAnchorY nose ls rs - cropHeight * 0.5
  { x := max 0 (min cropX (W - cropWidth))
    y := max 0 (min cropY (H - cropHeight))
    width := cropWidth, height := cropHeight }

/-- A pose candidate: its keypoint list. -/
abbrev Pose := List Keypoint

/-- The pose capability's answer for one image: either a thrown exception
(`Except.error`) or a list of pose candidates. -/
abbrev PoseResult := Except Unit (List Pose)

/-- JavaScript `keypoints.find(k => k.name === n)`. -/
def findKeypoint (kps : List Keypoint) (n : String) : Option Keypoint :=
  kps.find? (fun k => k.name == n)

/-- Source `getAutoCropRegion(image, targetSize, detector)`: `none` when the
detector is absent, the capability throws, no poses are returned, or a
required keypoint is missing; otherwise the subject-frame rectangle.
`detector = none` models an unloaded detector. -/
def getAutoCropRegion (W H : ℚ) (t : TargetSize) (detector : Option PoseResult) : Option Rect :=
  match detector with
  | none => none
  | some (.error _) => none
  | some (.ok []) => none
  | some (.ok (kps :: _)) =>
    match findKeypoint kps "nose", findKeypoint kps "left_shoulder",
          findKeypoint kps "right_shoulder" with
    | some nose, some ls, some rs => some (autoCropRect W H t nose ls rs)
    | _, _, _ => none

/-! ## ProgressiveResampler (`getCroppedCanvas`, lines 2150-2223)

The halving loop `while (currentWidth > targetSize.w * 2 && currentHeight >
targetSize.h * 2) { ... if (halfWidth < targetSize.w * 1.5) break; ... }`
is embedded as a fuel-indexed recursion returning the list of intermediate
`(width, height)` pairs it produces; each concrete run below is given
ample fuel, and the safety theorems hold for every fuel. -/

/-- Intermediate rasters produced by the progressive halving loop. -/
def halveLoop (t : TargetSize) : ℕ → ℚ → ℚ → List (ℚ × ℚ)
  | 0, _, _ => []
  | fuel + 1, currentWidth, currentHeight =>
    if currentWidth > t.w * 2 ∧ currentHeight > t.h * 2 then
      let halfWidth : ℚ := ⌊currentWidth / 2⌋
      let halfHeight : ℚ := ⌊currentHeight / 2⌋
      if halfWidth < t.w * 1.5 then []
      else (halfWidth, halfHeight) :: halveLoop t fuel halfWidth halfHeight
    else []

/-- A canvas raster: its pixel dimensions and the source rectangle that was
drawn into it (pixel contents are determined by these in the embedding). -/
structure Raster where
  w : ℚ
  h : ℚ
  srcRect : Rect
deriving DecidableEq, Repr

/-- The source rectangle selected inside `getCroppedCanvas`: the manual
`cropData` verbatim when present, else the centered-cover rectangle. -/
def croppedSourceRect (W H : ℚ) (cropData : Option Rect) (t : TargetSize) : Rect :=
  match cropData with
  | some r => r
  | none => centerCoverRect W H t

/-- Source `getCroppedCanvas` of the export module (lines 3326-3369): the final
canvas has exactly the target dimensions and is drawn from the selected
source rectangle. -/
def getCroppedCanvas (W H : ℚ) (cropData : Option Rect) (t : TargetSize) : Raster :=
  { w := t.w, h := t.h, srcRect := croppedSourceRect W H cropData t }

/-- Source `getCroppedCanvas` of the progressive-resampling module (lines
2150-2223): same final canvas, together with the intermediate rasters of
the halving phase. -/
def getCroppedCanvasProgressive (W H : ℚ) (cropData : Option Rect) (t : TargetSize)
    (fuel : ℕ) : Raster × List (ℚ × ℚ) :=
  let src := croppedSourceRect W H cropData t
  (⟨t.w, t.h, src⟩, halveLoop t fuel src.width src.height)

/-! ## BatchExportPipeline (`handleProcess`, lines 3397-3444) -/

/-- One input asset of the batch: original file name, category, optional
manual crop, source dimensions, whether the image URL loads, and the pose
capability's behaviour on this image. -/
structure Asset where
  name : String
  type : Category
  cropData : Option Rect
  W : ℚ
  H : ℚ
  loadOk : Bool
  poses : PoseResult

/-- Per-asset processing outcome. -/
inductive Outcome where
  | success (canvas : Raster)
  | skipped
  | failed
deriving DecidableEq, Repr

/-- Source `getAutoCroppedCanvas` (lines 3371-3395): resolves `null` when the
image fails to load or no region is found; never rejects. -/
def getAutoCroppedCanvas (a : Asset) (t : TargetSize) : Option Raster :=
  if a.loadOk then
    match getAutoCropRegion a.W a.H t (some a.poses) with
    | some region => some ⟨t.w, t.h, region⟩
    | none => none
  else none

/-- The body of the per-asset loop of `handleProcess`: target-size lookup,
the Staff auto-crop gate with centered fallback, and the try/catch that
turns a load failure into a non-fatal failed outcome. `det` is whether the
detector is loaded; `ready` is `modelStatus === 'ready'`. -/
def processOne (det ready : Bool) (media : Profile) (a : Asset) : Outcome :=
  match RESIZE_DEFINITIONS media a.type with
  | none => .skipped
  | some t =>
    if a.type = .Staff ∧ a.cropData = none ∧ det ∧ ready then
      match getAutoCroppedCanvas a t with
      | some canvas => .success canvas
      | none =>
        if a.loadOk then .success (getCroppedCanvas a.W a.H none t) else .failed
    else
      if a.loadOk then .success (getCroppedCanvas a.W a.H a.cropData t) else .failed

/-- Source `fileNameWithoutExt`: JavaScript
`name.substring(0, name.lastIndexOf('.')) || name`. `lastDotIdx` is the
index of the last `'.'`, `-1` when absent. -/
def lastDotIdx : List Char → Int
  | [] => -1
  | c :: rest =>
    let r := lastDotIdx rest
    if r ≥ 0 then r + 1 else if c = '.' then 0 else -1

/-- The stem used for the archive entry (`substring` clamps a negative end
index to `0`, and the empty string is falsy, falling back to the name). -/
def fileNameWithoutExt (s : String) : String :=
  let pre := s.data.take (lastDotIdx s.data).toNat
  if pre.isEmpty then s else ⟨pre⟩

/-- The archive entry name: `` `${fileNameWithoutExt}.jpg` ``. -/
def entryName (s : String) : String :=
  fileNameWithoutExt s ++ ".jpg"

/-- The archive entry for one asset: present exactly when processing
succeeds. -/
def entryOf (det ready : Bool) (media : Profile) (a : Asset) : Option (String × Raster) :=
  match processOne det ready media a with
  | .success canvas => some (entryName a.name, canvas)
  | _ => none

/-- Source `handleProcess`: the sequential per-asset loop, producing the outcome
list (in input order) and the archive entries handed to the ZIP writer. -/
def handleProcess (det ready : Bool) (media : Profile) : List Asset → List Outcome × List (String × Raster)
  | [] => ([], [])
  | a :: rest =>
    let o := processOne det ready media a
    let tail := handleProcess det ready media rest
    match o with
    | .success canvas => (o :: tail.1, (entryName a.name, canvas) :: tail.2)
    | _ => (o :: tail.1, tail.2)

/-! ## Derived predicates used by the invariant claims -/

/-- The §3 bounds invariant of a crop rectangle against a `W × H` source. -/
def rectInBounds (W H : ℚ) (r : Rect) : Prop :=
  0 ≤ r.x ∧ 0 ≤ r.y ∧ r.x + r.width ≤ W ∧ r.y + r.height ≤ H

/-- The §3 aspect-ratio invariant: `width/height` equals the target aspect
ratio within `1e-3`. -/
def rectAspectWithin (r : Rect) (t : TargetSize) : Prop :=
  |r.width / r.height - t.w / t.h| ≤ 1 / 1000

/-- The combined crop resolution performed per asset by `handleProcess`
together with `getCroppedCanvas` / `getAutoCroppedCanvas`: manual crop
verbatim, else the Staff-gated subject frame, else centered cover. -/
def resolveCropRect (det ready : Bool) (a : Asset) (t : TargetSize) : Rect :=
  if a.type = .Staff ∧ a.cropData = none ∧ det ∧ ready then
    match getAutoCropRegion a.W a.H t (some a.poses) with
    | some region => region
    | none => centerCoverRect a.W a.H t
  else croppedSourceRect a.W a.H a.cropData t

/-! ## Geometry lemmas -/

theorem centerCoverRect_bounds (W H : ℚ) (t : TargetSize) (hW : 0 < W) (hH : 0 < H)
    (htw : 0 < t.w) (hth : 0 < t.h) : rectInBounds W H (centerCoverRect W H t) := by
  have ha : 0 < t.w / t.h := div_pos htw hth
  rw [centerCoverRect]
  split_ifs with h
  · have hlt : t.w / t.h * H < W := (lt_div_iff₀ hH).mp h
    refine ⟨by nlinarith, le_refl 0, by nlinarith, by nlinarith⟩
  · push_neg at h
    have hle : W ≤ t.w / t.h * H := (div_le_iff₀ hH).mp h
    have h2 : W / (t.w / t.h) ≤ H := by
      rw [div_le_iff₀ ha]; nlinarith
    have h3 : 0 ≤ W / (t.w / t.h) := le_of_lt (div_pos hW ha)
    exact ⟨le_refl 0, by nlinarith, by nlinarith, by nlinarith⟩

theorem centerCoverRect_ratio (W H : ℚ) (t : TargetSize) (hW : 0 < W) (hH : 0 < H)
    (htw : 0 < t.w) (hth : 0 < t.h) :
    (centerCoverRect W H t).width / (centerCoverRect W H t).height = t.w / t.h := by
  have ha : t.w / t.h ≠ 0 := ne_of_gt (div_pos htw hth)
  rw [centerCoverRect]
  split_ifs with h
  · simp only
    rw [mul_comm, mul_div_assoc, div_self (ne_of_gt hH), mul_one]
  · simp only
    rw [div_div_eq_mul_div, mul_comm, mul_div_assoc, div_self (ne_of_gt hW), mul_one]

theorem maxCropWidthFromX_le (W : ℚ) (ls rs : Keypoint) : maxCropWidthFromX W ls rs ≤ W := by
  rw [maxCropWidthFromX]
  have h1 := min_le_left (shoulderCenterX ls rs) (W - shoulderCenterX ls rs)
  have h2 := min_le_right (shoulderCenterX ls rs) (W - shoulderCenterX ls rs)
  linarith

theorem maxCropHeightFromY_le (H : ℚ) (nose ls rs : Keypoint) :
    maxCropHeightFromY H nose ls rs ≤ H := by
  rw [maxCropHeightFromY]
  rcases le_total (cropAnchorY nose ls rs) ((0.55 : ℚ) * H) with h | h
  · refine le_trans (min_le_left _ _) ?_
    rw [div_le_iff₀ (by norm_num : (0 : ℚ) < 0.55)]
    linarith
  · refine le_trans (min_le_right _ _) ?_
    rw [div_le_iff₀ (by norm_num : (0 : ℚ) < 0.45)]
    linarith

theorem autoCropRect_size_le (W H : ℚ) (t : TargetSize) (nose ls rs : Keypoint)
    (htw : 0 < t.w) (hth : 0 < t.h) :
    (autoCropRect W H t nose ls rs).width ≤ W ∧ (autoCropRect W H t nose ls rs).height ≤ H := by
  have ha : 0 < t.w / t.h := div_pos htw hth
  have hmw := maxCropWidthFromX_le W ls rs
  have hmh := maxCropHeightFromY_le H nose ls rs
  rw [autoCropRect]
  split_ifs with h
  · exact ⟨hmw, le_trans h hmh⟩
  · push_neg at h
    have : maxCropHeightFromY H nose ls rs * (t.w / t.h) < maxCropWidthFromX W ls rs :=
      (lt_div_iff₀ ha).mp h
    exact ⟨by linarith, hmh⟩

theorem autoCropRect_bounds (W H : ℚ) (t : TargetSize) (nose ls rs : Keypoint)
    (htw : 0 < t.w) (hth : 0 < t.h) : rectInBounds W H (autoCropRect W H t nose ls rs) := by
  obtain ⟨hw, hh⟩ := autoCropRect_size_le W H t nose ls rs htw hth
  refine ⟨?_, ?_, ?_, ?_⟩
  · exact le_max_left 0 _
  · exact le_max_left 0 _
  · have hx : (autoCropRect W H t nose ls rs).x ≤ W - (autoCropRect W H t nose ls rs).width := by
      apply max_le
      · linarith
      · exact min_le_right _ _
    linarith
  · have hy : (autoCropRect W H t nose ls rs).y ≤ H - (autoCropRect W H t nose ls rs).height := by
      apply max_le
      · linarith
      · exact min_le_right _ _
    linarith

theorem autoCropRect_ratio (W H : ℚ) (t : TargetSize) (nose ls rs : Keypoint)
    (htw : 0 < t.w) (hth : 0 < t.h)
    (hmw : 0 < maxCropWidthFromX W ls rs) (hmh : 0 < maxCropHeightFromY H nose ls rs) :
    (autoCropRect W H t nose ls rs).width / (autoCropRect W H t nose ls rs).height = t.w / t.h := by
  have ha : 0 < t.w / t.h := div_pos htw hth
  rw [autoCropRect]
  split_ifs with h
  · simp only
    rw [div_div_eq_mul_div, mul_comm, mul_div_assoc, div_self (ne_of_gt hmw), mul_one]
  · simp only
    rw [mul_comm, mul_div_assoc, div_self (ne_of_gt hmh), mul_one]

/-! ## Concrete assets used in witnesses and counterexamples -/

/-- A Logo asset (no manual crop, loads fine). -/
def logoAsset : Asset :=
  { name := "logo.png", type := .Logo, cropData := none, W := 800, H := 600,
    loadOk := true, poses := .ok [] }

/-- A Staff asset with a manual crop and a fully working pose capability. -/
def staffManualAsset : Asset :=
  { name := "staff_1.png", type := .Staff, cropData := some ⟨10, 20, 75, 87⟩, W := 800, H := 600,
    loadOk := true,
    poses := .ok [[⟨"nose", 400, 100⟩, ⟨"left_shoulder", 350, 200⟩, ⟨"right_shoulder", 450, 200⟩]] }

/-- A Staff asset whose pose capability returns an empty pose list. -/
def noPoseStaffAsset : Asset :=
  { name := "staff_2.png", type := .Staff, cropData := none, W := 800, H := 600,
    loadOk := true, poses := .ok [] }

/-- An asset carrying a manual crop rectangle that starts left of the image. -/
def badManualAsset : Asset :=
  { name := "a.jpg", type := .Photo, cropData := some ⟨-5, 0, 10, 10⟩, W := 100, H := 100,
    loadOk := true, poses := .ok [] }

/-- A Staff asset whose detected keypoints all sit on the image's left edge. -/
def edgeStaffAsset : Asset :=
  { name := "staff_3.png", type := .Staff, cropData := none, W := 100, H := 100,
    loadOk := true,
    poses := .ok [[⟨"nose", 0, 0⟩, ⟨"left_shoulder", 0, 0⟩, ⟨"right_shoulder", 0, 0⟩]] }

/-! ## Batch-pipeline lemmas -/

/-- Whether an outcome is a success. -/
def isSuccessOutcome : Outcome → Bool
  | .success _ => true
  | _ => false

theorem handleProcess_outcomes (det ready : Bool) (media : Profile) (assets : List Asset) :
    (handleProcess det ready media assets).1 = assets.map (processOne det ready media) := by
  induction assets with
  | nil => rfl
  | cons a rest ih =>
    simp only [handleProcess, List.map_cons]
    cases h : processOne det ready media a <;> simp [h, ih]

theorem handleProcess_entries (det ready : Bool) (media : Profile) (assets : List Asset) :
    (handleProcess det ready media assets).2 = assets.filterMap (entryOf det ready media) := by
  induction assets with
  | nil => rfl
  | cons a rest ih =>
    simp only [handleProcess, List.filterMap_cons]
    cases h : processOne det ready media a <;> simp [entryOf, h, ih]

theorem handleProcess_entry_count (det ready : Bool) (media : Profile) (assets : List Asset) :
    ((handleProcess det ready media assets).2).length =
      ((handleProcess det ready media assets).1).countP isSuccessOutcome := by
  induction assets with
  | nil => rfl
  | cons a rest ih =>
    simp only [handleProcess]
    cases h : processOne det ready media a <;>
      simp [h, ih, List.countP_cons, isSuccessOutcome]

/-! ## Claim theorems -/

/-- C2 (amended): the halving phase only runs while both current dimensions
exceed 2× the target (not 1.5×), and its early break guards only the width:
every intermediate raster has width at least 1.5 × targetSize.w, and the
loop body is entered only from states exceeding 2× the target in both
axes. -/
theorem halveLoop_width_invariant :
    (∀ (t : TargetSize) (fuel : ℕ) (cw ch : ℚ) (p : ℚ × ℚ),
        p ∈ halveLoop t fuel cw ch → t.w * 1.5 ≤ p.1) ∧
    (∀ (t : TargetSize) (fuel : ℕ) (cw ch : ℚ),
        halveLoop t fuel cw ch ≠ [] → t.w * 2 < cw ∧ t.h * 2 < ch) := by
  constructor
  · intro t fuel
    induction fuel with
    | zero => intro cw ch p hp; simp [halveLoop] at hp
    | succ n ih =>
      intro cw ch p hp
      simp only [halveLoop] at hp
      split_ifs at hp with h1 h2
      · simp at hp
      · rcases List.mem_cons.mp hp with h | h
        · rw [h]; exact not_lt.mp h2
        · exact ih _ _ _ h
      · simp at hp
  · intro t fuel cw ch hne
    cases fuel with
    | zero => exact absurd rfl hne
    | succ n =>
      simp only [halveLoop] at hne
      split_ifs at hne with h1 h2
      · exact absurd rfl hne
      · exact ⟨h1.1, h1.2⟩
      · exact absurd rfl hne

/-- Witness for C2's amended theorem at a concrete run. -/
theorem halveLoop_width_invariant_witness :
    ((25, 50) ∈ halveLoop ⟨10, 10⟩ 10 51 101 ∧ (10 : ℚ) * 1.5 ≤ 25) ∧
    (halveLoop ⟨10, 10⟩ 10 51 101 ≠ [] ∧ (10 : ℚ) * 2 < 51 ∧ (10 : ℚ) * 2 < 101) :=
  ⟨⟨by norm_num [halveLoop],
    halveLoop_width_invariant.1 ⟨10, 10⟩ 10 51 101 (25, 50) (by norm_num [halveLoop])⟩,
   ⟨by norm_num [halveLoop],
    halveLoop_width_invariant.2 ⟨10, 10⟩ 10 51 101 (by norm_num [halveLoop])⟩⟩

/-- C2 counterexample to the claim as stated: with target 10×10, a working
raster of 18×18 exceeds 1.5× the target in both axes yet no halving step is
taken (the loop guard requires 2×); and a run from 100×21 produces the
intermediate raster (50, 10) whose height 10 is below 1.5 × 10 = 15. -/
theorem halveLoop_claim_counterexample :
    (halveLoop ⟨10, 10⟩ 10 18 18 = [] ∧ (10 : ℚ) * 1.5 < 18) ∧
    (halveLoop ⟨10, 10⟩ 10 100 21 = [(50, 10)] ∧ (10 : ℚ) < 10 * 1.5) := by
  norm_num [halveLoop]

/-- C3: a present manual crop is used verbatim by the crop resolver and the
export pipeline — the pose estimate is never computed in its place, whatever
the category and detector state. -/
theorem manual_crop_precedence (det ready : Bool) (media : Profile) (a : Asset) (r : Rect)
    (t : TargetSize) (hc : a.cropData = some r) (ht : RESIZE_DEFINITIONS media a.type = some t)
    (hl : a.loadOk = true) :
    resolveCropRect det ready a t = r ∧
    processOne det ready media a = .success ⟨t.w, t.h, r⟩ := by
  have hgate : ¬(a.type = .Staff ∧ a.cropData = none ∧ det ∧ ready) := by
    rintro ⟨-, h2, -⟩
    rw [hc] at h2
    cases h2
  constructor
  · rw [resolveCropRect, if_neg hgate]
    simp [croppedSourceRect, hc]
  · simp [processOne, ht, hgate, hl, hc, getCroppedCanvas, croppedSourceRect]

/-- Witness for C3: a Staff asset with both a manual crop and a working
pose capability exports exactly the manual rectangle. -/
theorem manual_crop_precedence_witness :
    resolveCropRect true true staffManualAsset ⟨150, 174⟩ = ⟨10, 20, 75, 87⟩ ∧
    processOne true true .EPARK staffManualAsset = .success ⟨150, 174, ⟨10, 20, 75, 87⟩⟩ :=
  manual_crop_precedence true true .EPARK staffManualAsset ⟨10, 20, 75, 87⟩ ⟨150, 174⟩ rfl rfl rfl

/-- C6: the media-profile table is the literal source table, and a Logo
asset is exported as a 330×220 success under EPARK but skipped (with no
archive entry) under PeakManager. -/
theorem profile_table_logo :
    RESIZE_DEFINITIONS .EPARK .Photo = some ⟨660, 440⟩ ∧
    RESIZE_DEFINITIONS .EPARK .Staff = some ⟨150, 174⟩ ∧
    RESIZE_DEFINITIONS .EPARK .Logo = some ⟨330, 220⟩ ∧
    RESIZE_DEFINITIONS .PeakManager .Logo = none ∧
    processOne true true .EPARK logoAsset = .success ⟨330, 220, centerCoverRect 800 600 ⟨330, 220⟩⟩ ∧
    (handleProcess true true .EPARK [logoAsset]).2 =
      [("logo.jpg", ⟨330, 220, centerCoverRect 800 600 ⟨330, 220⟩⟩)] ∧
    processOne true true .PeakManager logoAsset = .skipped ∧
    (handleProcess true true .PeakManager [logoAsset]).2 = [] :=
  ⟨rfl, rfl, rfl, rfl, rfl, rfl, rfl, rfl⟩

/-- C7: both `getCroppedCanvas` variants draw their final canvas at exactly
the target dimensions, for every crop rectangle (or centered fallback) and
every positive target size, whatever intermediate the halving phase ends
at. -/
theorem resample_exact_dimensions (W H : ℚ) (cropData : Option Rect) (t : TargetSize)
    (fuel : ℕ) (_htw : 0 < t.w) (_hth : 0 < t.h) :
    (getCroppedCanvas W H cropData t).w = t.w ∧ (getCroppedCanvas W H cropData t).h = t.h ∧
    (getCroppedCanvasProgressive W H cropData t fuel).1.w = t.w ∧
    (getCroppedCanvasProgressive W H cropData t fuel).1.h = t.h :=
  ⟨rfl, rfl, rfl, rfl⟩

/-- Witness for C7 at a concrete crop and target. -/
theorem resample_exact_dimensions_witness :
    (0 : ℚ) < 150 ∧ (0 : ℚ) < 174 ∧
    (getCroppedCanvas 800 600 (some ⟨10, 20, 75, 87⟩) ⟨150, 174⟩).w = 150 ∧
    (getCroppedCanvas 800 600 (some ⟨10, 20, 75, 87⟩) ⟨150, 174⟩).h = 174 ∧
    (getCroppedCanvasProgressive 800 600 (some ⟨10, 20, 75, 87⟩) ⟨150, 174⟩ 12).1.w = 150 ∧
    (getCroppedCanvasProgressive 800 600 (some ⟨10, 20, 75, 87⟩) ⟨150, 174⟩ 12).1.h = 174 := by
  have h := resample_exact_dimensions 800 600 (some ⟨10, 20, 75, 87⟩) ⟨150, 174⟩ 12
    (by norm_num) (by norm_num)
  exact ⟨by norm_num, by norm_num, h.1, h.2.1, h.2.2.1, h.2.2.2⟩

/-- C8: the classifier is a pure function of the lowered file name with
first-match-wins rules; "staff" wins over the photo keyword "photo" in the
same name, and matching is case-insensitive. -/
theorem classifier_rules :
    detectImageType "STAFF_photo.jpg" = .Staff ∧
    detectImageType "staff_photo.jpg" = .Staff ∧
    (∀ s : String, strIncludes (jsToLower s) "staff" = true → detectImageType s = .Staff) ∧
    detectImageType "my_logo.png" = .Logo ∧
    detectImageType "ロゴ.png" = .Logo ∧
    detectImageType "shop.png" = .Photo ∧
    detectImageType "zzz.bin" = .Photo := by
  refine ⟨by decide, by decide, ?_, by decide, by decide, by decide, by decide⟩
  intro s h
  simp [detectImageType, h]

/-- Witness for C8's universally quantified staff rule. -/
theorem classifier_rules_witness :
    strIncludes (jsToLower "Team_STAFF_and_photo.png") "staff" = true ∧
    detectImageType "Team_STAFF_and_photo.png" = .Staff :=
  ⟨by decide, classifier_rules.2.2.1 "Team_STAFF_and_photo.png" (by decide)⟩

/-- C9: the batch loop is per-asset compositional — each asset's outcome is
a function of that asset alone, outcomes appear in input order with one
outcome per asset, replacing one asset never changes any other asset's
outcome, and exactly one archive entry is produced per success. -/
theorem batch_isolation :
    (∀ (det ready : Bool) (media : Profile) (assets : List Asset),
        (handleProcess det ready media assets).1 = assets.map (processOne det ready media) ∧
        (handleProcess det ready media assets).1.length = assets.length ∧
        (handleProcess det ready media assets).2 = assets.filterMap (entryOf det ready media) ∧
        ((handleProcess det ready media assets).2).length =
          ((handleProcess det ready media assets).1).countP isSuccessOutcome) ∧
    (∀ (det ready : Bool) (media : Profile) (pre post : List Asset) (a b : Asset),
        ((handleProcess det ready media (pre ++ a :: post)).1).take pre.length =
          ((handleProcess det ready media (pre ++ b :: post)).1).take pre.length ∧
        ((handleProcess det ready media (pre ++ a :: post)).1).drop (pre.length + 1) =
          ((handleProcess det ready media (pre ++ b :: post)).1).drop (pre.length + 1)) := by
  constructor
  · intro det ready media assets
    refine ⟨handleProcess_outcomes det ready media assets, ?_,
      handleProcess_entries det ready media assets,
      handleProcess_entry_count det ready media assets⟩
    rw [handleProcess_outcomes det ready media assets, List.length_map]
  · intro det ready media pre post a b
    rw [handleProcess_outcomes det ready media (pre ++ a :: post),
      handleProcess_outcomes det ready media (pre ++ b :: post),
      List.map_append, List.map_append, List.map_cons, List.map_cons]
    constructor
    · rw [List.take_left' (by simp), List.take_left' (by simp)]
    · have hsplit : ∀ (c : Outcome) (l2 : List Outcome),
          ((pre.map (processOne det ready media) ++ c :: l2).drop (pre.length + 1)) = l2 := by
        intro c l2
        rw [show pre.map (processOne det ready media) ++ c :: l2 =
              (pre.map (processOne det ready media) ++ [c]) ++ l2 by simp,
          List.drop_left' (by simp)]
      rw [hsplit, hsplit]

/-! ## Archive-entry-name lemmas -/

theorem lastDotIdx_neg (cs : List Char) : lastDotIdx cs < 0 ↔ '.' ∉ cs := by
  induction cs with
  | nil => simp [lastDotIdx]
  | cons c rest ih =>
    simp only [lastDotIdx, List.mem_cons]
    split_ifs with h1 h2
    · have hmem : '.' ∈ rest := by
        by_contra hnot
        have := ih.mpr hnot
        omega
      constructor
      · intro h; omega
      · intro h; exact absurd (Or.inr hmem) h
    · constructor
      · intro h; omega
      · intro h; exact absurd (Or.inl h2.symm) h
    · have hrest : '.' ∉ rest := ih.mp (by omega)
      constructor
      · intro _ hor
        rcases hor with hc | hr
        · exact h2 hc.symm
        · exact hrest hr
      · intro _; norm_num

theorem lastDotIdx_nonneg (cs : List Char) : 0 ≤ lastDotIdx cs ↔ '.' ∈ cs := by
  rw [← not_lt, lastDotIdx_neg, not_not]

theorem lastDotIdx_eq_zero (c : Char) (rest : List Char) :
    lastDotIdx (c :: rest) = 0 ↔ c = '.' ∧ '.' ∉ rest := by
  simp only [lastDotIdx]
  split_ifs with h1 h2
  · constructor
    · intro h; omega
    · rintro ⟨-, hno⟩
      have := (lastDotIdx_neg rest).mpr hno
      omega
  · have hno : '.' ∉ rest := (lastDotIdx_neg rest).mp (by omega)
    simp [h2, hno]
  · constructor
    · intro h; exact h.elim
    · rintro ⟨hc, -⟩; exact absurd hc h2

/-- C10: the archive entry name keeps the whole original name (plus
".jpg") when the name has no '.' or its only '.' is the leading character,
and otherwise keeps the part before the last '.' (plus ".jpg"); so the
stem is never emptied by extension stripping. -/
theorem archive_entry_stem (s : String) :
    ('.' ∉ s.data → entryName s = s ++ ".jpg") ∧
    (∀ c cs, s.data = c :: cs → c = '.' → '.' ∉ cs → entryName s = s ++ ".jpg") ∧
    ('.' ∈ s.data → ¬(s.data.head? = some '.' ∧ '.' ∉ s.data.tail) →
      entryName s = String.mk (s.data.take (lastDotIdx s.data).toNat) ++ ".jpg") ∧
    entryName "photo" = "photo.jpg" ∧ entryName ".env" = ".env.jpg" := by
  refine ⟨?_, ?_, ?_, by decide, by decide⟩
  · intro h
    have hneg : lastDotIdx s.data < 0 := (lastDotIdx_neg _).mpr h
    have h0 : (lastDotIdx s.data).toNat = 0 := by omega
    simp [entryName, fileNameWithoutExt, h0]
  · intro c cs hdata hc hno
    have h0 : lastDotIdx s.data = 0 := by
      rw [hdata]
      exact (lastDotIdx_eq_zero c cs).mpr ⟨hc, hno⟩
    simp [entryName, fileNameWithoutExt, h0]
  · intro hmem hnot
    have hge : 0 ≤ lastDotIdx s.data := (lastDotIdx_nonneg _).mpr hmem
    obtain ⟨c, cs, hd⟩ : ∃ c cs, s.data = c :: cs := by
      cases h : s.data with
      | nil => rw [h] at hmem; cases hmem
      | cons c cs => exact ⟨c, cs, rfl⟩
    have hpos : 0 < lastDotIdx s.data := by
      rcases lt_or_eq_of_le hge with h | h
      · exact h
      · exfalso
        apply hnot
        rw [hd] at h ⊢
        obtain ⟨hc, hno⟩ := (lastDotIdx_eq_zero c cs).mp h.symm
        exact ⟨by simp [hc], by simpa using hno⟩
    obtain ⟨k, hk⟩ : ∃ k, (lastDotIdx s.data).toNat = k + 1 :=
      ⟨(lastDotIdx s.data).toNat - 1, by omega⟩
    rw [entryName, fileNameWithoutExt]
    rw [hk, hd, List.take_succ_cons]
    simp

/-- Witness for C10: a name with several dots keeps the part before the
last one. -/
theorem archive_entry_stem_witness :
    '.' ∈ "img.old.png".data ∧
    entryName "img.old.png" =
      String.mk ("img.old.png".data.take (lastDotIdx "img.old.png".data).toNat) ++ ".jpg" :=
  ⟨by decide, (archive_entry_stem "img.old.png").2.2.1 (by decide) (by decide)⟩

/-- C4: for a Staff asset without manual crop whose pose capability
throws, returns no poses, or returns keypoints missing one of nose /
left_shoulder / right_shoulder, the estimator yields no rectangle (the
exception is caught, never propagated) and the exported raster equals the
centered-cover fallback's raster for the same image and target size. -/
theorem pose_failure_fallback (det ready : Bool) (media : Profile) (a : Asset)
    (t : TargetSize) (hstaff : a.type = .Staff) (hmanual : a.cropData = none)
    (hload : a.loadOk = true) (ht : RESIZE_DEFINITIONS media a.type = some t)
    (hfail : a.poses = .error () ∨ a.poses = .ok [] ∨
      ∃ kps rest, a.poses = .ok (kps :: rest) ∧
        (findKeypoint kps "nose" = none ∨ findKeypoint kps "left_shoulder" = none ∨
          findKeypoint kps "right_shoulder" = none)) :
    getAutoCropRegion a.W a.H t (some a.poses) = none ∧
    processOne det ready media a = .success (getCroppedCanvas a.W a.H none t) := by
  have hregion : getAutoCropRegion a.W a.H t (some a.poses) = none := by
    rcases hfail with h | h | ⟨kps, rest, hp, hmiss⟩
    · rw [h]; rfl
    · rw [h]; rfl
    · rw [hp]
      rcases hn : findKeypoint kps "nose" with _ | nk
      · simp [getAutoCropRegion, hn]
      rcases hl : findKeypoint kps "left_shoulder" with _ | lk
      · simp [getAutoCropRegion, hn, hl]
      rcases hr : findKeypoint kps "right_shoulder" with _ | rk
      · simp [getAutoCropRegion, hn, hl, hr]
      · exfalso
        rcases hmiss with hm | hm | hm <;> simp_all
  have hgc : getAutoCroppedCanvas a t = none := by
    simp [getAutoCroppedCanvas, hload, hregion]
  refine ⟨hregion, ?_⟩
  rw [hstaff] at ht
  cases det <;> cases ready <;>
    simp [processOne, ht, hstaff, hmanual, hload, hgc]

/-- Witness for C4: a Staff asset whose pose capability returns an empty
pose list exports the centered-cover raster. -/
theorem pose_failure_fallback_witness :
    getAutoCropRegion 800 600 ⟨150, 174⟩ (some noPoseStaffAsset.poses) = none ∧
    processOne true true .EPARK noPoseStaffAsset =
      .success (getCroppedCanvas 800 600 none ⟨150, 174⟩) :=
  pose_failure_fallback true true .EPARK noPoseStaffAsset ⟨150, 174⟩ rfl rfl rfl rfl
    (Or.inr (Or.inl rfl))

/-- The §4.3 subject-frame algorithm transcribed from the specification's
wording, for comparison with the source-derived `autoCropRect`. -/
def specSubjectFrameRect (W H : ℚ) (t : TargetSize) (nose ls rs : Keypoint) : Rect :=
  let targetAspect := t.w / t.h
  let anchorX := (ls.x + rs.x) / 2
  let shoulderMidY := (ls.y + rs.y) / 2
  let anchorY := 0.5 * nose.y + 0.5 * shoulderMidY
  let maxWidth := 2 * min anchorX (W - anchorX)
  let maxHeight := min (anchorY / 0.55) ((H - anchorY) / 0.45)
  let cropWidth := if maxWidth / targetAspect ≤ maxHeight then maxWidth else maxHeight * targetAspect
  let cropHeight := if maxWidth / targetAspect ≤ maxHeight then maxWidth / targetAspect else maxHeight
  { x := max 0 (min (anchorX - cropWidth / 2) (W - cropWidth))
    y := max 0 (min (anchorY - cropHeight / 2) (H - cropHeight))
    width := cropWidth, height := cropHeight }

theorem autoCropRect_eq_spec (W H : ℚ) (t : TargetSize) (nose ls rs : Keypoint) :
    autoCropRect W H t nose ls rs = specSubjectFrameRect W H t nose ls rs := by
  have hA : cropAnchorY nose ls rs = 0.5 * nose.y + 0.5 * ((ls.y + rs.y) / 2) := by
    rw [cropAnchorY]; ring
  have hhalf : ∀ q : ℚ, q * 0.5 = q / 2 := fun q => by
    rw [div_eq_mul_inv]; norm_num
  simp only [autoCropRect, specSubjectFrameRect, maxCropWidthFromX, maxCropHeightFromY,
    shoulderCenterX, hA, hhalf]

/-- C5: the subject-frame rectangle follows exactly the anchor / bound /
aspect-fit / clamp formulas of §4.3, and for the spec's concrete scenario
(shoulders (100,150), (200,150), nose (150,100), target 150×174) the
vertical anchor is 125 and the crop aspect ratio is exactly 150/174. -/
theorem subject_frame_formulas :
    (∀ (W H : ℚ) (t : TargetSize) (nose ls rs : Keypoint),
        autoCropRect W H t nose ls rs = specSubjectFrameRect W H t nose ls rs) ∧
    cropAnchorY ⟨"nose", 150, 100⟩ ⟨"left_shoulder", 100, 150⟩ ⟨"right_shoulder", 200, 150⟩ = 125 ∧
    (∀ W H : ℚ, 150 < W → 125 < H →
      (autoCropRect W H ⟨150, 174⟩ ⟨"nose", 150, 100⟩ ⟨"left_shoulder", 100, 150⟩
          ⟨"right_shoulder", 200, 150⟩).width /
        (autoCropRect W H ⟨150, 174⟩ ⟨"nose", 150, 100⟩ ⟨"left_shoulder", 100, 150⟩
          ⟨"right_shoulder", 200, 150⟩).height = 150 / 174) := by
  refine ⟨autoCropRect_eq_spec, by norm_num [cropAnchorY], ?_⟩
  intro W H hW hH
  apply autoCropRect_ratio _ _ _ _ _ _ (by norm_num) (by norm_num)
  · rw [maxCropWidthFromX, shoulderCenterX]
    norm_num [lt_min_iff]
    linarith
  · rw [maxCropHeightFromY, cropAnchorY]
    norm_num [lt_min_iff]
    linarith

/-- Witness for C5's scenario on a 400×400 source image. -/
theorem subject_frame_formulas_witness :
    (150 : ℚ) < 400 ∧ (125 : ℚ) < 400 ∧
    (autoCropRect 400 400 ⟨150, 174⟩ ⟨"nose", 150, 100⟩ ⟨"left_shoulder", 100, 150⟩
        ⟨"right_shoulder", 200, 150⟩).width /
      (autoCropRect 400 400 ⟨150, 174⟩ ⟨"nose", 150, 100⟩ ⟨"left_shoulder", 100, 150⟩
        ⟨"right_shoulder", 200, 150⟩).height = 150 / 174 :=
  ⟨by norm_num, by norm_num,
    subject_frame_formulas.2.2 400 400 (by norm_num) (by norm_num)⟩

/-- C1 (amended): crop rectangles from the subject-frame estimator and the
centered-cover fallback always satisfy the §3 bounds invariant, and carry
exactly the target aspect ratio (hence within 1e-3) whenever the
anchor-derived width and height bounds are positive — i.e. whenever the
rectangle is non-degenerate; a manual rectangle is passed through verbatim
by the resolver, so it satisfies the invariants only when the supplied
rectangle already does. -/
theorem crop_resolver_invariants :
    (∀ (det ready : Bool) (a : Asset) (t : TargetSize) (r : Rect),
        a.cropData = some r → resolveCropRect det ready a t = r) ∧
    (∀ (W H : ℚ) (t : TargetSize), 0 < W → 0 < H → 0 < t.w → 0 < t.h →
        rectInBounds W H (centerCoverRect W H t) ∧
        (centerCoverRect W H t).width / (centerCoverRect W H t).height = t.w / t.h ∧
        rectAspectWithin (centerCoverRect W H t) t) ∧
    (∀ (W H : ℚ) (t : TargetSize) (nose ls rs : Keypoint), 0 < t.w → 0 < t.h →
        rectInBounds W H (autoCropRect W H t nose ls rs)) ∧
    (∀ (W H : ℚ) (t : TargetSize) (nose ls rs : Keypoint), 0 < t.w → 0 < t.h →
        0 < maxCropWidthFromX W ls rs → 0 < maxCropHeightFromY H nose ls rs →
        (autoCropRect W H t nose ls rs).width / (autoCropRect W H t nose ls rs).height =
          t.w / t.h ∧
        rectAspectWithin (autoCropRect W H t nose ls rs) t) := by
  refine ⟨?_, ?_, ?_, ?_⟩
  · intro det ready a t r hc
    have hgate : ¬(a.type = .Staff ∧ a.cropData = none ∧ det ∧ ready) := by
      rintro ⟨-, h2, -⟩
      rw [hc] at h2
      cases h2
    rw [resolveCropRect, if_neg hgate]
    simp [croppedSourceRect, hc]
  · intro W H t hW hH htw hth
    refine ⟨centerCoverRect_bounds W H t hW hH htw hth,
      centerCoverRect_ratio W H t hW hH htw hth, ?_⟩
    rw [rectAspectWithin, centerCoverRect_ratio W H t hW hH htw hth]
    norm_num
  · intro W H t nose ls rs htw hth
    exact autoCropRect_bounds W H t nose ls rs htw hth
  · intro W H t nose ls rs htw hth hmw hmh
    refine ⟨autoCropRect_ratio W H t nose ls rs htw hth hmw hmh, ?_⟩
    rw [rectAspectWithin, autoCropRect_ratio W H t nose ls rs htw hth hmw hmh]
    norm_num

/-- Witness for C1's amended theorem: each branch instantiated. -/
theorem crop_resolver_invariants_witness :
    resolveCropRect true true badManualAsset ⟨100, 100⟩ = ⟨-5, 0, 10, 10⟩ ∧
    (rectInBounds 400 300 (centerCoverRect 400 300 ⟨660, 440⟩) ∧
      (centerCoverRect 400 300 ⟨660, 440⟩).width / (centerCoverRect 400 300 ⟨660, 440⟩).height =
        (660 : ℚ) / 440 ∧
      rectAspectWithin (centerCoverRect 400 300 ⟨660, 440⟩) ⟨660, 440⟩) ∧
    rectInBounds 100 100
      (autoCropRect 100 100 ⟨100, 100⟩ ⟨"nose", 0, 0⟩ ⟨"left_shoulder", 0, 0⟩
        ⟨"right_shoulder", 0, 0⟩) ∧
    ((autoCropRect 400 400 ⟨150, 174⟩ ⟨"nose", 150, 100⟩ ⟨"left_shoulder", 100, 150⟩
          ⟨"right_shoulder", 200, 150⟩).width /
        (autoCropRect 400 400 ⟨150, 174⟩ ⟨"nose", 150, 100⟩ ⟨"left_shoulder", 100, 150⟩
          ⟨"right_shoulder", 200, 150⟩).height = (150 : ℚ) / 174 ∧
      rectAspectWithin
        (autoCropRect 400 400 ⟨150, 174⟩ ⟨"nose", 150, 100⟩ ⟨"left_shoulder", 100, 150⟩
          ⟨"right_shoulder", 200, 150⟩) ⟨150, 174⟩) :=
  ⟨crop_resolver_invariants.1 true true badManualAsset ⟨100, 100⟩ ⟨-5, 0, 10, 10⟩ rfl,
   crop_resolver_invariants.2.1 400 300 ⟨660, 440⟩ (by norm_num) (by norm_num)
     (by norm_num) (by norm_num),
   crop_resolver_invariants.2.2.1 100 100 ⟨100, 100⟩ ⟨"nose", 0, 0⟩ ⟨"left_shoulder", 0, 0⟩
     ⟨"right_shoulder", 0, 0⟩ (by norm_num) (by norm_num),
   crop_resolver_invariants.2.2.2 400 400 ⟨150, 174⟩ ⟨"nose", 150, 100⟩
     ⟨"left_shoulder", 100, 150⟩ ⟨"right_shoulder", 200, 150⟩ (by norm_num) (by norm_num)
     (by norm_num [maxCropWidthFromX, shoulderCenterX, lt_min_iff])
     (by rw [maxCropHeightFromY, cropAnchorY]; norm_num [lt_min_iff])⟩

/-- C1 counterexample to the claim as stated: the resolver returns an
out-of-bounds manual rectangle verbatim (x = -5 < 0), and shoulder/nose
keypoints on the image's left edge produce a degenerate 0×0 subject-frame
rectangle whose width/height is not within 1e-3 of the target aspect. -/
theorem crop_invariants_counterexample :
    (resolveCropRect true true badManualAsset ⟨100, 100⟩).x < 0 ∧
    ¬ rectInBounds 100 100 (resolveCropRect true true badManualAsset ⟨100, 100⟩) ∧
    resolveCropRect true true edgeStaffAsset ⟨100, 100⟩ = ⟨0, 0, 0, 0⟩ ∧
    ¬ rectAspectWithin (resolveCropRect true true edgeStaffAsset ⟨100, 100⟩) ⟨100, 100⟩ := by
  have hbad : resolveCropRect true true badManualAsset ⟨100, 100⟩ = ⟨-5, 0, 10, 10⟩ := rfl
  have hedge : resolveCropRect true true edgeStaffAsset ⟨100, 100⟩ =
      autoCropRect 100 100 ⟨100, 100⟩ ⟨"nose", 0, 0⟩ ⟨"left_shoulder", 0, 0⟩
        ⟨"right_shoulder", 0, 0⟩ := rfl
  have hrect : autoCropRect 100 100 ⟨100, 100⟩ ⟨"nose", 0, 0⟩ ⟨"left_shoulder", 0, 0⟩
      ⟨"right_shoulder", 0, 0⟩ = ⟨0, 0, 0, 0⟩ := by
    rw [autoCropRect, maxCropWidthFromX, maxCropHeightFromY, shoulderCenterX, cropAnchorY]
    norm_num
  refine ⟨?_, ?_, ?_, ?_⟩
  · rw [hbad]; norm_num
  · rw [hbad, rectInBounds]; norm_num
  · rw [hedge, hrect]
  · rw [hedge, hrect, rectAspectWithin]
    norm_num

end MediaResizer
